import Mathlib

/-!  Shallow embedding of the ATS scoring / text-normalization pipeline of
`backend1/app/helpers/resume_helper.py`, together with theorems settling the
frozen claims about it.

Python strings are modelled as `List Char` (wrapped in `String` at the
interfaces).  The Python `re` patterns used by the pipeline are embedded as
explicit pattern terms executed by a small continuation-passing backtracking
matcher (`matchP`) whose alternation order, greediness, word boundaries,
anchors and non-overlapping scan follow CPython's `re` engine for the
constructs that actually occur in the source (literals, single-character
classes, ordered alternation, greedy star/plus/option, lazy dot-star,
`\b`, `^`, `$`, lookahead, capture groups). -/

namespace ResumeHelper

/-- ASCII whitespace recognized by Python's `\s`, `str.split()` and
`str.strip()` (the resumes processed here are ASCII; the rare non-ASCII
Unicode whitespace characters are not modelled). -/
def isPySpace (c : Char) : Bool :=
  c == ' ' || c == '\t' || c == '\n' || c == '\r' || c == '\x0b' || c == '\x0c'

/-- Python `\w`: letters, digits, underscore (ASCII part). -/
def isWordChar (c : Char) : Bool :=
  decide (('a' ≤ c ∧ c ≤ 'z') ∨ ('A' ≤ c ∧ c ≤ 'Z') ∨ ('0' ≤ c ∧ c ≤ '9') ∨ c = '_')

/-- Python `\d` (ASCII). -/
def isDigitChar (c : Char) : Bool :=
  decide ('0' ≤ c ∧ c ≤ '9')

/-- Patterns: the `re` constructs the source uses. -/
inductive Pat where
  | eps   : Pat
  | cls   : (Char → Bool) → Pat
  | seq   : Pat → Pat → Pat
  | alt   : Pat → Pat → Pat
  | opt   : Pat → Pat
  | starG : Pat → Pat
  | lazyC : (Char → Bool) → Pat
  | wordB : Pat
  | bol   : Pat
  | eos   : Pat
  | ahead : Pat → Pat
  | grp   : Nat → Pat → Pat

/-- A literal string pattern, as a sequence of single-character classes. -/
def plit (s : String) : Pat :=
  s.data.foldr (fun c p => Pat.seq (Pat.cls (fun x => x == c)) p) Pat.eps

/-- Ordered alternation of a list of patterns (first pattern preferred,
like `a|b|c` in `re`). -/
def altOf : List Pat → Pat
  | [] => Pat.cls (fun _ => false)
  | [p] => p
  | p :: ps => Pat.alt p (altOf ps)

/-- Greedy `+`, as `p` followed by a greedy star of `p`. -/
def plusP (p : Pat) : Pat := Pat.seq p (Pat.starG p)

/-- Captured groups of a match: group index, captured characters.  The most
recent capture of a group is the head of the list. -/
abbrev Caps := List (Nat × List Char)

/-- Result handed to the top continuation: the last consumed character (for
`\b` at the resume point), the remaining suffix, and the captures. -/
abbrev MRes := Option Char × List Char × Caps

/-- Continuations of the matcher. -/
abbrev Cont := Option Char → List Char → Caps → Option MRes

/-- One layer of the backtracking matcher, in continuation-passing style:
structural recursion on the pattern, with loop re-entry for the greedy star
and the lazy star delegated to `next` (instantiated below with the matcher
at one fuel unit less).  `prev` is the character just before the current
position (`none` at position 0), `rem` the remaining input, `k` the
continuation.  Alternation and option try their first/non-empty branch
first, the greedy star tries one more (input-consuming) iteration before
stopping, and the lazy star tries the continuation before consuming — the
backtracking order of CPython's `re`. -/
def matchA (next : Pat → Option Char → List Char → Caps → Cont → Option MRes) :
    Pat → Option Char → List Char → Caps → Cont → Option MRes
  | .eps, prev, rem, caps, k => k prev rem caps
  | .cls p, _, rem, caps, k =>
    match rem with
    | [] => none
    | c :: rs => if p c then k (some c) rs caps else none
  | .seq a b, prev, rem, caps, k =>
    matchA next a prev rem caps (fun p r cp => matchA next b p r cp k)
  | .alt a b, prev, rem, caps, k =>
    (matchA next a prev rem caps k).orElse (fun _ => matchA next b prev rem caps k)
  | .opt a, prev, rem, caps, k =>
    (matchA next a prev rem caps k).orElse (fun _ => k prev rem caps)
  | .starG a, prev, rem, caps, k =>
    (matchA next a prev rem caps (fun p r cp =>
      if r.length < rem.length then next (.starG a) p r cp k else none)).orElse
      (fun _ => k prev rem caps)
  | .lazyC p, prev, rem, caps, k =>
    (k prev rem caps).orElse (fun _ =>
      match rem with
      | [] => none
      | c :: rs => if p c then next (.lazyC p) (some c) rs caps k else none)
  | .wordB, prev, rem, caps, k =>
    let lw := match prev with | some c => isWordChar c | none => false
    let rw := match rem with | c :: _ => isWordChar c | [] => false
    if lw != rw then k prev rem caps else none
  | .bol, prev, rem, caps, k =>
    match prev with
    | none => k prev rem caps
    | some _ => none
  | .eos, prev, rem, caps, k =>
    match rem with
    | [] => k prev rem caps
    | ['\n'] => k prev rem caps
    | _ => none
  | .ahead a, prev, rem, caps, k =>
    match matchA next a prev rem caps (fun p r cp => some (p, r, cp)) with
    | some _ => k prev rem caps
    | none => none
  | .grp i a, prev, rem, caps, k =>
    matchA next a prev rem caps (fun p r cp =>
      k p r ((i, rem.take (rem.length - r.length)) :: cp))

/-- The backtracking matcher.  `fuel` bounds re-entry of the star/lazy
loops; one unit is spent per loop iteration and every iteration is required
to consume input, so `length + 1` fuel is always sufficient. -/
def matchP : Nat → Pat → Option Char → List Char → Caps → Cont → Option MRes
  | 0, _, _, _, _, _ => none
  | fuel + 1, pat, prev, rem, caps, k => matchA (matchP fuel) pat prev rem caps k

/-- Non-overlapping left-to-right scan collecting the captures of every
match, as `re.findall` / `re.finditer` do: try a match at each position; on a
match resume right after it (after one character if it was empty — the
patterns used here cannot match the empty string). -/
def findAllAux : Nat → Pat → Option Char → List Char → List Caps
  | 0, _, _, _ => []
  | fuel + 1, pat, prev, rem =>
    match matchP (rem.length + 1) pat prev rem [] (fun p r cp => some (p, r, cp)) with
    | some (p, r, cp) =>
      if r.length < rem.length then
        cp :: findAllAux fuel pat p r
      else
        cp :: (match rem with
          | [] => []
          | c :: rs => findAllAux fuel pat (some c) rs)
    | none =>
      match rem with
      | [] => []
      | c :: rs => findAllAux fuel pat (some c) rs

def pyFindAll (pat : Pat) (l : List Char) : List Caps :=
  findAllAux (l.length + 1) pat none l

/-- `len(re.findall(pat, text))`. -/
def countMatches (pat : Pat) (l : List Char) : Nat :=
  (pyFindAll pat l).length

/-- Truthiness of `re.search(pat, text)`. -/
def searchB (pat : Pat) (l : List Char) : Bool :=
  !(pyFindAll pat l).isEmpty

/-- `re.sub(pat, "", text)`: remove every non-overlapping match. -/
def subAllEmpty : Nat → Pat → Option Char → List Char → List Char
  | 0, _, _, rem => rem
  | fuel + 1, pat, prev, rem =>
    match matchP (rem.length + 1) pat prev rem [] (fun p r cp => some (p, r, cp)) with
    | some (p, r, _) =>
      if r.length < rem.length then subAllEmpty fuel pat p r
      else
        match rem with
        | [] => []
        | c :: rs => c :: subAllEmpty fuel pat (some c) rs
    | none =>
      match rem with
      | [] => []
      | c :: rs => c :: subAllEmpty fuel pat (some c) rs

def pySubEmpty (pat : Pat) (l : List Char) : List Char :=
  subAllEmpty (l.length + 1) pat none l

/-- The most recent capture of group `i` (`""` when the group did not
participate, as `re.findall` reports unmatched groups). -/
def capStr (caps : Caps) (i : Nat) : List Char :=
  (caps.lookup i).getD []

/-- Python's `needle in haystack` for strings. -/
def frontMatches : List Char → List Char → Bool
  | [], _ => true
  | _ :: _, [] => false
  | a :: as, b :: bs => a == b && frontMatches as bs

def containsSub : List Char → List Char → Bool
  | needle, [] => needle.isEmpty
  | needle, c :: tl => frontMatches needle (c :: tl) || containsSub needle tl

/-- `str.split()` with no argument: split on whitespace runs, no empty
pieces. -/
def splitWSAux : List Char → List Char → List (List Char)
  | [], acc => if acc.isEmpty then [] else [acc.reverse]
  | c :: cs, acc =>
    if isPySpace c then
      if acc.isEmpty then splitWSAux cs [] else acc.reverse :: splitWSAux cs []
    else splitWSAux cs (c :: acc)

def pySplitWS (l : List Char) : List (List Char) :=
  splitWSAux l []

/-- `str.split(sep)` / `re.split` on a single-character class: split at every
separator character, keeping empty pieces (always at least one piece). -/
def splitKeepAux (p : Char → Bool) : List Char → List Char → List (List Char)
  | [], acc => [acc.reverse]
  | c :: cs, acc =>
    if p c then acc.reverse :: splitKeepAux p cs []
    else splitKeepAux p cs (c :: acc)

def splitKeep (p : Char → Bool) (l : List Char) : List (List Char) :=
  splitKeepAux p l []

/-- `str.strip()` (whitespace from both ends). -/
def pyStrip (l : List Char) : List Char :=
  ((l.dropWhile isPySpace).reverse.dropWhile isPySpace).reverse

/-- `str.lower()` (ASCII). -/
def lowerL (l : List Char) : List Char := l.map Char.toLower

/-- `str.capitalize()`: first character uppercased, the rest lowercased. -/
def pyCapitalize (l : List Char) : List Char :=
  match l with
  | [] => []
  | c :: cs => Char.toUpper c :: cs.map Char.toLower

/-- Code-point lexicographic `<` on strings, as Python compares `str`. -/
def strLtL : List Char → List Char → Bool
  | [], [] => false
  | [], _ :: _ => true
  | _ :: _, [] => false
  | a :: as, b :: bs =>
    if a.val < b.val then true else if b.val < a.val then false else strLtL as bs

def insSorted (x : String) : List String → List String
  | [] => [x]
  | y :: ys => if strLtL x.data y.data then x :: y :: ys else y :: insSorted x ys

/-- `sorted(...)` for lists of strings. -/
def sortStrings (l : List String) : List String :=
  l.foldr insSorted []

/-- First-occurrence deduplication: keeps the first appearance of each
element, drops later repetitions (`seen` accumulates what was kept). -/
def dedupSeen : List String → List String → List String
  | [], _ => []
  | x :: xs, seen =>
    if x ∈ seen then dedupSeen xs seen else x :: dedupSeen xs (x :: seen)

def dedupKeepFirst (l : List String) : List String :=
  dedupSeen l []

/-! ## `normalize_languages` (resume_helper.py lines 22-56) -/

/-- The argument of `normalize_languages` is either a string or a list of
strings (`isinstance(text, list)` branch). -/
inductive PyTextInput where
  | ofStr : String → PyTextInput
  | ofList : List String → PyTextInput

/-- The fixed `language_patterns` list. -/
def language_patterns : List String :=
  ["english", "tamil", "hindi", "telugu", "malayalam", "kannada",
   "french", "german", "spanish", "marathi", "bengali", "punjabi",
   "gujarati", "urdu", "oriya", "nepali"]

/-- The pattern `\b(english|...|nepali)\b\s*(\([^)]+\))?`.  Group 2 captures
the parenthesized proficiency annotation including its parentheses. -/
def langPat : Pat :=
  .seq .wordB
    (.seq (.grp 1 (altOf (language_patterns.map plit)))
      (.seq .wordB
        (.seq (.starG (.cls isPySpace))
          (.opt (.grp 2 (.seq (plit "(")
            (.seq (plusP (.cls (fun c => !(c == ')')))) (plit ")"))))))))

/-- Loop body `if result not in results: results.append(result)`. -/
def appendIfAbsent (acc : List String) (x : String) : List String :=
  if x ∈ acc then acc else acc ++ [x]

/-- Rendering of one `(lang, prof)` match:
`lang.capitalize()`, plus, when `prof` is non-empty,
`" " + re.sub(r"\s+", "", prof.upper())` (whitespace removed, uppercased;
the parentheses captured by group 2 are kept). -/
def renderLang (caps : Caps) : String :=
  let lang := capStr caps 1
  let prof := capStr caps 2
  let lang_clean := pyCapitalize lang
  if prof.isEmpty then ⟨lang_clean⟩
  else ⟨lang_clean ++ (' ' :: (prof.map Char.toUpper).filter (fun c => !isPySpace c))⟩

/-- The rendered results of all matches, in match order (before the
duplicate-dropping loop). -/
def renderedOfText (text : List Char) : List String :=
  (pyFindAll langPat (lowerL text)).map renderLang

/-- `" ".join(str(t) for t in text if t)` for the list branch, then the
rendered match list of the resulting string. -/
def renderedLanguages (input : PyTextInput) : List String :=
  match input with
  | .ofStr s => if s.data.isEmpty then [] else renderedOfText s.data
  | .ofList l =>
    if l.isEmpty then []
    else renderedOfText (List.intercalate [' '] ((l.filter (fun t => !(t == ""))).map String.data))

/-- `normalize_languages` (lines 22-56): empty/falsy input gives `[]`; list
input is joined with single spaces; matches of `langPat` against the
lowercased text are rendered and appended in order, dropping entries already
present. -/
def normalize_languages (input : PyTextInput) : List String :=
  (renderedLanguages input).foldl appendIfAbsent []

/-! ## `extract_programming_languages` (resume_helper.py lines 1017-1074) -/

/-- The `PROGRAMMING_LANGUAGES` master list: canonical name and aliases, in
source order. -/
def PROGRAMMING_LANGUAGES : List (String × List String) :=
  [("c", ["c language", "c lang"]),
   ("c++", ["cpp", "c plus plus"]),
   ("java", ["core java", "advanced java"]),
   ("python", ["python programming"]),
   ("javascript", ["js", "nodejs", "node js"]),
   ("typescript", []),
   ("ruby", []),
   ("go", ["golang"]),
   ("swift", []),
   ("kotlin", []),
   ("php", ["php language"]),
   ("r", ["r language"]),
   ("matlab", []),
   ("scala", []),
   ("perl", [])]

/-- `PROGRAMMING_SYNONYMS`: each canonical maps to itself, each alias to its
canonical, in construction order. -/
def PROGRAMMING_SYNONYMS : List (String × String) :=
  PROGRAMMING_LANGUAGES.foldl
    (fun acc kv => (acc ++ [(kv.1, kv.1)]) ++ kv.2.map (fun al => (al, kv.1))) []

/-- The pattern
`\b(c|c\+\+|java|python|javascript|typescript|php|r|go|ruby|swift|kotlin|scala|perl)\b`. -/
def langTokenPat : Pat :=
  .seq .wordB
    (.seq (.grp 1 (altOf [plit "c", plit "c++", plit "java", plit "python",
      plit "javascript", plit "typescript", plit "php", plit "r", plit "go",
      plit "ruby", plit "swift", plit "kotlin", plit "scala", plit "perl"])) .wordB)

/-- Insert into the `found` set (modelled as an insertion-ordered
duplicate-free list; the final result is sorted, so the set's iteration
order is irrelevant). -/
def addIfAbsentL (acc : List String) (x : String) : List String :=
  if acc.contains x then acc else acc ++ [x]

/-- `extract_programming_languages` (lines 1046-1074): lowercase the text;
add the capitalization of every canonical name occurring as a raw substring,
of every synonym key occurring as a raw substring, and of every whole-word
regex match; then drop `"R"` unless `"r "`, `" r,"` or `"language"` occurs;
finally `sorted(list(set(...)))`. -/
def extract_programming_languages (text : String) : List String :=
  let t := lowerL text.data
  let f1 := PROGRAMMING_LANGUAGES.foldl
    (fun acc kv => if containsSub kv.1.data t then addIfAbsentL acc ⟨pyCapitalize kv.1.data⟩ else acc) []
  let f2 := PROGRAMMING_SYNONYMS.foldl
    (fun acc sc => if containsSub sc.1.data t then addIfAbsentL acc ⟨pyCapitalize sc.2.data⟩ else acc) f1
  let f3 := (pyFindAll langTokenPat t).foldl
    (fun acc caps => addIfAbsentL acc ⟨pyCapitalize (capStr caps 1)⟩) f2
  let cleaned := f3.foldl
    (fun acc item =>
      if item == "R" then
        if !containsSub " r,".data t && !containsSub "r ".data t
            && !containsSub "language".data t then acc
        else acc ++ [item]
      else acc ++ [item]) []
  sortStrings (dedupKeepFirst cleaned)

/-! ## `calculate_ats_score` (resume_helper.py lines 85-170) -/

/-- Keyword lists of `calculate_ats_score`, in source order. -/
def tech_keywords : List String :=
  ["python", "java", "c++", "c#", "go", "node", "react", "angular", "vue",
   "javascript", "typescript", "mongodb", "mysql", "postgres", "sql", "redis",
   "aws", "azure", "gcp", "docker", "kubernetes", "terraform", "tensorflow",
   "pytorch", "scikit-learn", "pandas", "numpy", "fastapi", "django", "flask",
   "spring", "express", "rest", "graphql", "microservices"]

def tools_keywords : List String :=
  ["git", "github", "gitlab", "jira", "jenkins", "figma", "linux", "bash",
   "shell", "tableau", "power bi", "excel", "visual studio", "vscode", "colab"]

def soft_skills : List String :=
  ["leadership", "communication", "teamwork", "problem solving", "ownership",
   "adaptability"]

def cert_keywords : List String :=
  ["certified", "certificate", "aws", "azure", "gcp", "oracle", "pmp", "scrum",
   "cisco"]

/-- The 24 action verbs of the `action_verbs` pattern, in source order. -/
def action_verbs_list : List String :=
  ["developed", "built", "designed", "implemented", "managed", "optimized",
   "increased", "reduced", "led", "collaborated", "deployed", "created",
   "trained", "improved", "tested", "analyzed", "automated", "integrated",
   "streamlined", "orchestrated", "debugged", "resolved", "scaled",
   "architected"]

/-- `\b(developed|...|architected)\b`. -/
def actionPat : Pat :=
  .seq .wordB (.seq (.grp 1 (altOf (action_verbs_list.map plit))) .wordB)

/-- `\b(\d+%|\d+\s+(users|clients|projects|years|months)|\$\d+|\d+\s+(x|times))\b`. -/
def metricsPat : Pat :=
  .seq .wordB
    (.seq (.grp 1
      (.alt (.seq (plusP (.cls isDigitChar)) (plit "%"))
      (.alt (.seq (plusP (.cls isDigitChar)) (.seq (plusP (.cls isPySpace))
              (.grp 2 (altOf [plit "users", plit "clients", plit "projects",
                              plit "years", plit "months"]))))
      (.alt (.seq (plit "$") (plusP (.cls isDigitChar)))
            (.seq (plusP (.cls isDigitChar)) (.seq (plusP (.cls isPySpace))
              (.grp 3 (altOf [plit "x", plit "times"]))))))))
      .wordB)

/-- `[a-z0-9._%+-]+@[a-z0-9.-]+\.\w+`. -/
def emailPat : Pat :=
  .seq (plusP (.cls (fun c =>
      decide (('a' ≤ c ∧ c ≤ 'z') ∨ ('0' ≤ c ∧ c ≤ '9')) || c == '.' || c == '_'
        || c == '%' || c == '+' || c == '-')))
    (.seq (plit "@")
      (.seq (plusP (.cls (fun c =>
          decide (('a' ≤ c ∧ c ≤ 'z') ∨ ('0' ≤ c ∧ c ≤ '9')) || c == '.' || c == '-')))
        (.seq (plit ".") (plusP (.cls isWordChar)))))

/-- `(linkedin\.com|github\.com)`. -/
def linkPat : Pat :=
  .grp 1 (.alt (plit "linkedin.com") (plit "github.com"))

/-- `(\n\s*[-•*])`. -/
def bulletPat : Pat :=
  .grp 1 (.seq (plit "\n") (.seq (.starG (.cls isPySpace))
    (.cls (fun c => c == '-' || c == '•' || c == '*'))))

/-- `\.(png|jpg|jpeg|svg)`. -/
def imagePat : Pat :=
  .seq (plit ".") (.grp 1 (altOf [plit "png", plit "jpg", plit "jpeg", plit "svg"]))

/-- `len(max(text.split("\n"), key=len))`: length of a longest line.
`split("\n")` always returns at least one piece, so the `except` branch of
the source (for `max` on an empty sequence) is unreachable for strings. -/
def longestLineLen (l : List Char) : Nat :=
  ((splitKeep (fun c => c == '\n') l).map List.length).foldl max 0

def required_sections : List String :=
  ["experience", "education", "skills", "projects"]

/-- `sum(5 for section in required_sections if data.get(section))`; the
`data` mapping is modelled by the truthiness of `data.get(key)`. -/
def sectionScoreOf (data : String → Bool) : ℚ :=
  required_sections.foldl (fun acc s => if data s then acc + 5 else acc) 0

/-- Python `round(x, 2)` for exactly-represented values: round
`x * 100` to an integer, ties to even, divide by 100.  (On this code path
`x * 100` is always an integer, so the tie branch never fires and the
floating-point representation of `x` is exact.) -/
def roundHalfEven (q : ℚ) : ℤ :=
  let f := ⌊q⌋
  let r := q - f
  if r < 1 / 2 then f
  else if 1 / 2 < r then f + 1
  else if f % 2 = 0 then f else f + 1

def pyRound2 (q : ℚ) : ℚ :=
  (roundHalfEven (q * 100) : ℚ) / 100

/-- Values of the breakdown dict in insertion order
(`sum(score_details.values())`). -/
def sumValues (l : List (String × ℚ)) : ℚ :=
  l.foldl (fun a p => a + p.2) 0

/-- The dictionary returned by `calculate_ats_score`. -/
structure AtsResult where
  ats_breakdown : List (String × ℚ)
  ats_score : ℚ
  word_count : Nat
  languages : Option (List String)
  deriving Repr, DecidableEq

/-- `contact_score` (lines 118-120): `+5` for an email match, `+5` for a
linkedin/github match. -/
def contactScore (text_lower : List Char) : ℚ :=
  (if searchB emailPat text_lower then 5 else 0)
    + (if searchB linkPat text_lower then 5 else 0)

/-- `wc_score` (line 125). -/
def wordCountScoreQ (word_count : Nat) : ℚ :=
  if 500 ≤ word_count ∧ word_count ≤ 1200 then 5
  else if 300 ≤ word_count then 3 else 0

/-- `bp_score` (line 130). -/
def bulletScoreQ (bullet_count : Nat) : ℚ :=
  if 10 ≤ bullet_count then 10 else if 4 ≤ bullet_count then 5 else 0

/-- `achievement_score` (lines 134-136). -/
def achievementScore (text_lower : List Char) : ℚ :=
  min ((countMatches actionPat text_lower : ℚ) * 1
    + (countMatches metricsPat text_lower : ℚ) * 2) 20

/-- `skill_score` (lines 140-142). -/
def skillsStrength (text_lower : List Char) : ℚ :=
  min (((tech_keywords.filter (fun kw => containsSub kw.data text_lower)).length : ℚ) * 1.5
    + ((tools_keywords.filter (fun kw => containsSub kw.data text_lower)).length : ℚ) * 1) 30

/-- `soft_score + cert_score` (lines 146-148). -/
def softCertScore (text_lower : List Char) : ℚ :=
  min ((soft_skills.filter (fun kw => containsSub kw.data text_lower)).length : ℚ) 2
    + min ((cert_keywords.filter (fun kw => containsSub kw.data text_lower)).length : ℚ) 3

/-- `-min(penalty, 5)` (lines 151-157): `+2` for an image-extension match
(on the lowered text), `+1` when the longest line of the original text
exceeds 150 characters. -/
def formattingPenalty (text_lower orig : List Char) : ℚ :=
  -(min ((if searchB imagePat text_lower then 2 else 0)
    + (if longestLineLen orig > 150 then 1 else 0)) 5)

/-- The eight category entries of `score_details` in insertion order
(lines 110-157).  Email/link/keyword/verb/metric/image matching runs on the
lowered text, bullet counting and the longest line on the original text,
exactly as in the source. -/
def atsBreakdownPre (data : String → Bool) (text : String) : List (String × ℚ) :=
  [("Section Coverage", min (sectionScoreOf data) 20),
   ("Contact Info", min (contactScore (lowerL text.data)) 10),
   ("Word Count", wordCountScoreQ (pySplitWS text.data).length),
   ("Bullet Points", bulletScoreQ (countMatches bulletPat text.data)),
   ("Action + Achievements", achievementScore (lowerL text.data)),
   ("Skills Strength", skillsStrength (lowerL text.data)),
   ("Soft Skills & Certs", softCertScore (lowerL text.data)),
   ("Formatting Penalty", formattingPenalty (lowerL text.data) text.data)]

/-- `calculate_ats_score(data, text, normalized_languages)`
(lines 85-170) for a dict `data` and a string `text`: the eight capped
category scores in insertion order, the clamped and rounded total appended
under `"Total ATS Score"`, plus `word_count` and the pass-through
`languages`. -/
def calculate_ats_score (data : String → Bool) (text : String)
    (normalized_languages : Option (List String)) : AtsResult :=
  { ats_breakdown := atsBreakdownPre data text
      ++ [("Total ATS Score",
            pyRound2 (max (min (sumValues (atsBreakdownPre data text)) 100) 0))],
    ats_score := pyRound2 (max (min (sumValues (atsBreakdownPre data text)) 100) 0),
    word_count := (pySplitWS text.data).length,
    languages := normalized_languages }

/-- Python-level exceptions relevant to the dynamic behaviour of
`calculate_ats_score`. -/
inductive PyErr where
  | attributeError
  deriving Repr, DecidableEq

/-- `calculate_ats_score` including the dynamic `None` cases of its
arguments.  `text_lower = (text or "").lower()` (line 88) tolerates
`text=None`, but the function then raises `AttributeError`:
with `data=None` at `data.get(section)` (line 113), and otherwise with
`text=None` at `text.split()` (line 124), before anything is returned. -/
def calculate_ats_score_dyn (data : Option (String → Bool))
    (text : Option String) (langs : Option (List String)) :
    Except PyErr AtsResult :=
  match data with
  | none => .error .attributeError
  | some d =>
    match text with
    | none => .error .attributeError
    | some t => .ok (calculate_ats_score d t langs)

/-- Value of a category in the breakdown (`score_details[key]`). -/
def scoreOf (r : AtsResult) (k : String) : ℚ :=
  (r.ats_breakdown.lookup k).getD 0

/-! ## `extract_technical_skills` (resume_helper.py lines 1080-1352) -/

/-- `SKILL_SYNONYMS` (lines 1080-1249).  The Python source is a dict literal
with many duplicated keys; a Python dict literal keeps the first position
and the last value of a duplicated key, so the table below lists each key
once, at its first position, with the value of its last occurrence (this
only changes `gcp`, whose last value drops `"google cloud"`). -/
def SKILL_SYNONYMS : List (String × List String) :=
  [("excel", ["ms excel", "microsoft excel"]),
   ("power bi", ["powerbi"]),
   ("mysql", ["my sql", "my-sql"]),
   ("html", ["html5"]),
   ("css", ["css3"]),
   ("react", ["reactjs", "react js"]),
   ("node", ["nodejs", "node js"]),
   ("git", ["git version control"]),
   ("vscode", ["visual studio code", "vs code"]),
   ("jupyter", ["jupyter notebook", "jupyter lab"]),
   ("postman", []),
   ("figma", []),
   ("docker", []),
   ("kubernetes", ["k8s"]),
   ("aws", ["amazon web services"]),
   ("azure", ["microsoft azure"]),
   ("gcp", ["google cloud platform"]),
   ("jenkins", []),
   ("ansible", []),
   ("terraform", []),
   ("postgresql", ["postgres"]),
   ("mongodb", []),
   ("redis", []),
   ("kafka", ["apache kafka"]),
   ("hadoop", ["apache hadoop"]),
   ("spark", ["apache spark"]),
   ("tensorflow", []),
   ("pytorch", ["pytorch"]),
   ("tableau", []),
   ("powerbi", ["power bi"]),
   ("sap", []),
   ("salesforce", []),
   ("oracle", ["oracle db", "oracle database"]),
   ("mssql", ["microsoft sql server", "sql server"]),
   ("linux", []),
   ("unix", []),
   ("bash", ["bash scripting", "shell scripting"]),
   ("powershell", []),
   ("rhel", ["red hat enterprise linux"]),
   ("ubuntu", []),
   ("centos", []),
   ("wordpress", []),
   ("drupal", []),
   ("magento", []),
   ("shopify", []),
   ("woocommerce", ["woo commerce"]),
   ("seo", ["search engine optimization"]),
   ("adobe photoshop", ["photoshop", "ps"]),
   ("adobe illustrator", ["illustrator", "ai"]),
   ("adobe xd", ["xd"]),
   ("sketch", []),
   ("invision", []),
   ("zeplin", []),
   ("jira", []),
   ("confluence", []),
   ("trello", []),
   ("asana", []),
   ("slack", []),
   ("zoom", []),
   ("teams", ["microsoft teams"]),
   ("skype", []),
   ("webex", ["cisco webex"]),
   ("vmware", []),
   ("virtualbox", []),
   ("wireshark", []),
   ("ethernet", []),
   ("tcp/ip", ["tcp", "ip"]),
   ("dns", ["domain name system"]),
   ("dhcp", ["dynamic host configuration protocol"]),
   ("vpn", ["virtual private network"]),
   ("ldap", ["lightweight directory access protocol"]),
   ("active directory", ["ad"]),
   ("oauth", ["oath 2.0"]),
   ("jwt", ["json web token"]),
   ("rest", ["restful", "rest api"]),
   ("graphql", ["graph ql"]),
   ("soap", []),
   ("grpc", ["grpc"]),
   ("swagger", ["openapi"]),
   ("insomnia", []),
   ("junit", []),
   ("testng", []),
   ("selenium", []),
   ("cypress", []),
   ("jest", []),
   ("mocha", []),
   ("jasmine", []),
   ("pytest", []),
   ("unittest", ["python unittest"]),
   ("gitlab", ["gitlab ci/cd"]),
   ("github", ["github actions"]),
   ("bitbucket", []),
   ("travis", ["travis ci"]),
   ("circleci", ["circle ci"]),
   ("puppet", []),
   ("chef", []),
   ("docker compose", ["docker-compose"]),
   ("helm", []),
   ("istio", []),
   ("prometheus", []),
   ("grafana", []),
   ("kibana", []),
   ("elasticsearch", ["elastic search"]),
   ("logstash", []),
   ("filebeat", []),
   ("rabbitmq", ["rabbit mq"]),
   ("memcached", ["memcache"]),
   ("nginx", ["engine x"]),
   ("apache", ["apache http server"]),
   ("iis", ["internet information services"]),
   ("tomcat", ["apache tomcat"]),
   ("jboss", []),
   ("weblogic", ["oracle weblogic server"]),
   ("websphere", ["ibm websphere"]),
   ("ec2", ["amazon ec2"]),
   ("s3", ["amazon s3"]),
   ("lambda", ["aws lambda"]),
   ("firebase", ["google firebase"]),
   ("heroku", []),
   ("digitalocean", ["digital ocean"]),
   ("linode", []),
   ("vultr", []),
   ("ovh", []),
   ("alibaba cloud", ["alibaba cloud", "alibabacloud"]),
   ("oracle cloud", ["oracle cloud infrastructure", "oci"]),
   ("ibm cloud", ["ibm cloud", "bluemix"]),
   ("dynamodb", ["amazon dynamodb"]),
   ("cassandra", ["apache cassandra"]),
   ("couchbase", []),
   ("couchdb", ["apache couchdb"]),
   ("hbase", ["apache hbase"]),
   ("hive", ["apache hive"]),
   ("pig", ["apache pig"]),
   ("flink", ["apache flink"]),
   ("storm", ["apache storm"]),
   ("pulsar", ["apache pulsar"]),
   ("ignite", ["apache ignite"]),
   ("geode", ["apache geode"])]

/-- `normalize_skill` (lines 1252-1260): lowercase and strip, then return
the first canonical whose name or alias list matches exactly; unmatched
tokens pass through. -/
def normalize_skill (skill : List Char) : List Char :=
  let s := pyStrip (lowerL skill)
  match SKILL_SYNONYMS.find? (fun kv => s == kv.1.data || (kv.2.map String.data).contains s) with
  | some kv => kv.1.data
  | none => s

/-- `\s+` used inside the section-header patterns. -/
def ws1 : Pat := plusP (.cls isPySpace)

/-- The 21 `section_headers` patterns (lines 1268-1290), in source order. -/
def hdr01 : Pat :=
  .seq (plit "tools") (.opt (.seq ws1 (.seq (plit "and") (.seq ws1
    (.seq (plit "technolog") (.alt (plit "y") (plit "ies")))))))

def hdr02 : Pat :=
  .seq (plit "technical") (.opt (.alt (.seq ws1 (.seq (plit "skill") (.opt (plit "s"))))
    (.seq ws1 (plit "stack"))))

def hdr03 : Pat := .seq (plit "technologie") (.opt (plit "s"))

def hdr04 : Pat := .seq (plit "skill") (.opt (plit "s"))

def hdr05 : Pat :=
  .seq (plit "programming") (.opt (.alt (.seq ws1 (.seq (plit "skill") (.opt (plit "s"))))
    (.seq ws1 (.seq (plit "language") (.opt (plit "s"))))))

def hdr06 : Pat := .seq (plit "framework") (.opt (plit "s"))

def hdr07 : Pat := .seq (plit "librarie") (.opt (plit "s"))

def hdr08 : Pat := .seq (plit "database") (.opt (plit "s"))

def hdr09 : Pat := .seq (plit "platform") (.opt (plit "s"))

def hdr10 : Pat :=
  .seq (plit "software") (.opt (.seq ws1 (.seq (plit "skill") (.opt (plit "s")))))

def hdr11 : Pat :=
  .seq (plit "technical") (.opt (.alt (.seq ws1 (plit "expertise"))
    (.seq ws1 (plit "proficiency"))))

def hdr12 : Pat :=
  .seq (.seq (plit "technologie") (.opt (plit "s")))
    (.opt (.seq ws1 (.seq (plit "and") (.seq ws1 (plit "tools")))))

def hdr13 : Pat :=
  .seq (plit "tools") (.opt (.seq ws1 (.seq (plit "and") (.seq ws1 (plit "software")))))

def hdr14 : Pat :=
  .seq (plit "technical") (.alt (.seq ws1 (plit "knowledge")) (.seq ws1 (plit "background")))

def hdr15 : Pat :=
  .seq (plit "programming") (.opt (.seq ws1 (.seq (plit "and") (.seq ws1 (plit "scripting")))))

def hdr16 : Pat :=
  .seq (plit "development") (.opt (.alt (.seq ws1 (plit "environment"))
    (.seq ws1 (plit "stack"))))

def hdr17 : Pat := .seq (plit "technical") (.opt (.seq ws1 (plit "stack")))

def hdr18 : Pat :=
  .seq (plit "it") (.opt (.alt (.seq ws1 (plit "skills")) (.seq ws1 (plit "proficiency"))))

def hdr19 : Pat :=
  .seq (plit "computer") (.opt (.alt (.seq ws1 (plit "skills")) (.seq ws1 (plit "proficiency"))))

def hdr20 : Pat :=
  .seq (plit "software") (.opt (.alt (.seq ws1 (plit "proficiency")) (.seq ws1 (plit "skills"))))

def hdr21 : Pat :=
  .seq (plit "technical") (.alt (.seq ws1 (plit "competencies")) (.seq ws1 (plit "abilities")))

def headerAlt : Pat :=
  altOf [hdr01, hdr02, hdr03, hdr04, hdr05, hdr06, hdr07, hdr08, hdr09, hdr10,
    hdr11, hdr12, hdr13, hdr14, hdr15, hdr16, hdr17, hdr18, hdr19, hdr20, hdr21]

/-- The `section_pattern` of line 1293:
`(?:^|\n)\s*(headers)\s*[\n:]+(.*?)(?=\n\s*(?:headers|$))`,
compiled with `re.DOTALL` (the lazy star runs over every character) against
the already-lowercased text (`re.IGNORECASE` is then a no-op). -/
def sectionPat : Pat :=
  .seq (.alt .bol (plit "\n"))
    (.seq (.starG (.cls isPySpace))
      (.seq (.grp 1 headerAlt)
        (.seq (.starG (.cls isPySpace))
          (.seq (plusP (.cls (fun c => c == '\n' || c == ':')))
            (.seq (.grp 2 (.lazyC (fun _ => true)))
              (.ahead (.seq (plit "\n")
                (.seq (.starG (.cls isPySpace)) (.alt headerAlt .eos)))))))))

/-- `\s*\d+(\.\d+)*\b`, the version-number stripper. -/
def versionPat : Pat :=
  .seq (.starG (.cls isPySpace))
    (.seq (plusP (.cls isDigitChar))
      (.seq (.starG (.grp 1 (.seq (plit ".") (plusP (.cls isDigitChar))))) .wordB))

/-- The shared token-processing body of both loops of
`extract_technical_skills` (lines 1308-1324 and 1330-1346): strip, skip
empties, replace `[^\w\s-]` by spaces, collapse whitespace, strip, skip
tokens of length < 2, strip version numbers, normalize, and add to the skill
set (modelled as an insertion-ordered duplicate-free list). -/
def processToken (allSkills : List (List Char)) (part : List Char) : List (List Char) :=
  let part := pyStrip part
  if part.isEmpty then allSkills
  else
    let p := part.map (fun c => if isWordChar c || isPySpace c || c == '-' then c else ' ')
    let p := pyStrip (List.intercalate [' '] (pySplitWS p))
    if !p.isEmpty && p.length > 1 then
      let base := pyStrip (pySubEmpty versionPat p)
      if !base.isEmpty then
        let normalized := normalize_skill base
        if !normalized.isEmpty then
          if allSkills.contains normalized then allSkills else allSkills ++ [normalized]
        else allSkills
      else allSkills
    else allSkills

/-- `extract_technical_skills` (lines 1263-1352): tokens from every matched
heading section (split on `[,\n;|/•·]`), then — "for backward
compatibility" — tokens from the entire text with `|` replaced by `,`
(split on `[,/;\n•·]`); each token cleaned and normalized; the result
capitalized, deduplicated and sorted.  (`sorted(list(set(...)))` makes the
set's iteration order irrelevant.) -/
def extract_technical_skills (text : String) : List String :=
  let text_lower := lowerL text.data
  let sectionCaps := pyFindAll sectionPat text_lower
  let all1 := sectionCaps.foldl (fun acc caps =>
    let parts := splitKeep
      (fun c => c == ',' || c == '\n' || c == ';' || c == '|' || c == '/' || c == '•' || c == '·')
      (capStr caps 2)
    parts.foldl processToken acc) []
  let text2 := text.data.map (fun c => if c == '|' then ',' else c)
  let parts2 := splitKeep
    (fun c => c == ',' || c == '/' || c == ';' || c == '\n' || c == '•' || c == '·') text2
  let all2 := parts2.foldl processToken all1
  let clean := (all2.filter (fun s => !s.isEmpty && s.length > 1)).map
    (fun s => (⟨pyCapitalize s⟩ : String))
  let clean := dedupKeepFirst clean
  let clean := sortStrings clean
  sortStrings (dedupKeepFirst clean)

/-! ## `normalize_text` (resume_helper.py lines 911-913) -/

/-- `re.sub(r"\s+", " ", text)`: each maximal whitespace run is replaced by
a single space (`\s+` is greedy, so every match is a maximal run and the
scan resumes right after it). -/
def pySubWSRuns : List Char → List Char
  | [] => []
  | c :: cs =>
    if isPySpace c then ' ' :: pySubWSRuns (cs.dropWhile isPySpace)
    else c :: pySubWSRuns cs
termination_by l => l.length
decreasing_by
  all_goals simp_wf
  exact Nat.lt_succ_of_le (List.dropWhile_sublist _).length_le

/-- `normalize_text` (lines 911-913): collapse whitespace runs to single
spaces, then strip. -/
def normalize_text (text : String) : String :=
  ⟨pyStrip (pySubWSRuns text.data)⟩

/-! ## Helper lemmas -/

theorem scoreOf_sec (d : String → Bool) (t : String) (l : Option (List String)) :
    scoreOf (calculate_ats_score d t l) "Section Coverage" = min (sectionScoreOf d) 20 := rfl

theorem scoreOf_contact (d : String → Bool) (t : String) (l : Option (List String)) :
    scoreOf (calculate_ats_score d t l) "Contact Info"
      = min (contactScore (lowerL t.data)) 10 := rfl

theorem scoreOf_wc (d : String → Bool) (t : String) (l : Option (List String)) :
    scoreOf (calculate_ats_score d t l) "Word Count"
      = wordCountScoreQ (pySplitWS t.data).length := rfl

theorem scoreOf_bullets (d : String → Bool) (t : String) (l : Option (List String)) :
    scoreOf (calculate_ats_score d t l) "Bullet Points"
      = bulletScoreQ (countMatches bulletPat t.data) := rfl

theorem scoreOf_achievements (d : String → Bool) (t : String) (l : Option (List String)) :
    scoreOf (calculate_ats_score d t l) "Action + Achievements"
      = achievementScore (lowerL t.data) := rfl

theorem scoreOf_skills (d : String → Bool) (t : String) (l : Option (List String)) :
    scoreOf (calculate_ats_score d t l) "Skills Strength"
      = skillsStrength (lowerL t.data) := rfl

theorem scoreOf_softcert (d : String → Bool) (t : String) (l : Option (List String)) :
    scoreOf (calculate_ats_score d t l) "Soft Skills & Certs"
      = softCertScore (lowerL t.data) := rfl

theorem scoreOf_penalty (d : String → Bool) (t : String) (l : Option (List String)) :
    scoreOf (calculate_ats_score d t l) "Formatting Penalty"
      = formattingPenalty (lowerL t.data) t.data := rfl

theorem contactScore_nonneg (tl : List Char) : 0 ≤ contactScore tl := by
  unfold contactScore
  split_ifs <;> norm_num

theorem wordCountScoreQ_cases (n : Nat) :
    wordCountScoreQ n = 0 ∨ wordCountScoreQ n = 3 ∨ wordCountScoreQ n = 5 := by
  unfold wordCountScoreQ
  split_ifs <;> simp

theorem bulletScoreQ_cases (n : Nat) :
    bulletScoreQ n = 0 ∨ bulletScoreQ n = 5 ∨ bulletScoreQ n = 10 := by
  unfold bulletScoreQ
  split_ifs <;> simp

theorem achievementScore_bounds (tl : List Char) :
    0 ≤ achievementScore tl ∧ achievementScore tl ≤ 20 := by
  unfold achievementScore
  exact ⟨le_min (by positivity) (by norm_num), min_le_right _ _⟩

theorem skillsStrength_bounds (tl : List Char) :
    0 ≤ skillsStrength tl ∧ skillsStrength tl ≤ 30 := by
  unfold skillsStrength
  exact ⟨le_min (by positivity) (by norm_num), min_le_right _ _⟩

theorem softCertScore_bounds (tl : List Char) :
    0 ≤ softCertScore tl ∧ softCertScore tl ≤ 5 := by
  unfold softCertScore
  constructor
  · exact add_nonneg (le_min (by positivity) (by norm_num)) (le_min (by positivity) (by norm_num))
  · have h1 := min_le_right ((soft_skills.filter (fun kw => containsSub kw.data tl)).length : ℚ) 2
    have h2 := min_le_right ((cert_keywords.filter (fun kw => containsSub kw.data tl)).length : ℚ) 3
    linarith

theorem formattingPenalty_bounds (tl orig : List Char) :
    -5 ≤ formattingPenalty tl orig ∧ formattingPenalty tl orig ≤ 0 := by
  unfold formattingPenalty
  have h0 : (0 : ℚ) ≤ (if searchB imagePat tl then 2 else 0)
      + (if longestLineLen orig > 150 then 1 else 0) := by
    split_ifs <;> norm_num
  have h1 := min_le_right ((if searchB imagePat tl then (2 : ℚ) else 0)
      + (if longestLineLen orig > 150 then 1 else 0)) 5
  have h2 := le_min h0 (by norm_num : (0 : ℚ) ≤ 5)
  constructor <;> linarith

theorem sectionScoreOf_nonneg (d : String → Bool) : 0 ≤ sectionScoreOf d := by
  simp only [sectionScoreOf, required_sections, List.foldl]
  split_ifs <;> norm_num

theorem sectionScoreOf_le (d : String → Bool) : sectionScoreOf d ≤ 20 := by
  simp only [sectionScoreOf, required_sections, List.foldl]
  split_ifs <;> norm_num

theorem roundHalfEven_nonneg {x : ℚ} (h : 0 ≤ x) : 0 ≤ roundHalfEven x := by
  have hf : (0 : ℤ) ≤ ⌊x⌋ := Int.floor_nonneg.mpr h
  unfold roundHalfEven
  dsimp only
  split_ifs <;> omega

theorem roundHalfEven_le_of_le {x : ℚ} {m : ℤ} (h : x ≤ (m : ℚ)) :
    roundHalfEven x ≤ m := by
  have hf : ⌊x⌋ ≤ m := by
    have := Int.floor_le_floor h
    simpa using this
  have hfl : (⌊x⌋ : ℚ) ≤ x := Int.floor_le x
  unfold roundHalfEven
  dsimp only
  split_ifs with h1 h2 h3
  · exact hf
  · by_contra hc
    push_neg at hc
    have hm : ⌊x⌋ = m := by omega
    rw [hm] at h2
    have : (m : ℚ) + 1 / 2 < x := by linarith
    linarith
  · exact hf
  · by_contra hc
    push_neg at hc
    have hm : ⌊x⌋ = m := by omega
    have h12 : x - (⌊x⌋ : ℚ) = 1 / 2 := le_antisymm (not_lt.mp h2) (not_lt.mp h1)
    rw [hm] at h12
    linarith

theorem pyRound2_bounds {q : ℚ} (h0 : 0 ≤ q) (h1 : q ≤ 100) :
    0 ≤ pyRound2 q ∧ pyRound2 q ≤ 100 := by
  have ha : (0 : ℤ) ≤ roundHalfEven (q * 100) := roundHalfEven_nonneg (by positivity)
  have hb : roundHalfEven (q * 100) ≤ (10000 : ℤ) := by
    apply roundHalfEven_le_of_le
    push_cast
    linarith
  unfold pyRound2
  constructor
  · apply div_nonneg _ (by norm_num)
    exact_mod_cast ha
  · rw [div_le_iff₀ (by norm_num)]
    have : (roundHalfEven (q * 100) : ℚ) ≤ 10000 := by exact_mod_cast hb
    linarith

/-! ## Claim C1 -/

/-- Claim C1: for every input, the `"Total ATS Score"` entry of the
breakdown returned by `calculate_ats_score` is the sum of all other
breakdown entries, clamped to `[0, 100]` and rounded to 2 decimal places,
and in particular it lies in `[0, 100]` for all inputs (including empty
text). -/
theorem claim_C1_total_is_clamped_rounded_sum (data : String → Bool)
    (text : String) (langs : Option (List String)) :
    (calculate_ats_score data text langs).ats_breakdown.getLast? =
      some ("Total ATS Score",
        pyRound2 (max (min (sumValues
          (calculate_ats_score data text langs).ats_breakdown.dropLast) 100) 0))
    ∧ 0 ≤ (calculate_ats_score data text langs).ats_score
    ∧ (calculate_ats_score data text langs).ats_score ≤ 100 := by
  refine ⟨rfl, ?_, ?_⟩
  · exact (pyRound2_bounds (le_max_right _ _)
      (max_le (min_le_right _ _) (by norm_num))).1
  · exact (pyRound2_bounds (le_max_right _ _)
      (max_le (min_le_right _ _) (by norm_num))).2

/-! ## Claim C6 -/

/-- Claim C6: every rubric-category value in the breakdown returned by
`calculate_ats_score` lies within its documented bounds: Section Coverage in
`[0,20]`, Contact Info in `[0,10]`, Word Count in `{0,3,5}`, Bullet Points
in `{0,5,10}`, Action + Achievements in `[0,20]`, Skills Strength in
`[0,30]`, Soft Skills & Certs in `[0,5]`, Formatting Penalty in `[-5,0]`. -/
theorem claim_C6_category_bounds (data : String → Bool) (text : String)
    (langs : Option (List String)) :
    (0 ≤ scoreOf (calculate_ats_score data text langs) "Section Coverage"
      ∧ scoreOf (calculate_ats_score data text langs) "Section Coverage" ≤ 20)
    ∧ (0 ≤ scoreOf (calculate_ats_score data text langs) "Contact Info"
      ∧ scoreOf (calculate_ats_score data text langs) "Contact Info" ≤ 10)
    ∧ (scoreOf (calculate_ats_score data text langs) "Word Count" = 0
      ∨ scoreOf (calculate_ats_score data text langs) "Word Count" = 3
      ∨ scoreOf (calculate_ats_score data text langs) "Word Count" = 5)
    ∧ (scoreOf (calculate_ats_score data text langs) "Bullet Points" = 0
      ∨ scoreOf (calculate_ats_score data text langs) "Bullet Points" = 5
      ∨ scoreOf (calculate_ats_score data text langs) "Bullet Points" = 10)
    ∧ (0 ≤ scoreOf (calculate_ats_score data text langs) "Action + Achievements"
      ∧ scoreOf (calculate_ats_score data text langs) "Action + Achievements" ≤ 20)
    ∧ (0 ≤ scoreOf (calculate_ats_score data text langs) "Skills Strength"
      ∧ scoreOf (calculate_ats_score data text langs) "Skills Strength" ≤ 30)
    ∧ (0 ≤ scoreOf (calculate_ats_score data text langs) "Soft Skills & Certs"
      ∧ scoreOf (calculate_ats_score data text langs) "Soft Skills & Certs" ≤ 5)
    ∧ (-5 ≤ scoreOf (calculate_ats_score data text langs) "Formatting Penalty"
      ∧ scoreOf (calculate_ats_score data text langs) "Formatting Penalty" ≤ 0) := by
  rw [scoreOf_sec, scoreOf_contact, scoreOf_wc, scoreOf_bullets,
    scoreOf_achievements, scoreOf_skills, scoreOf_softcert, scoreOf_penalty]
  refine ⟨⟨?_, ?_⟩, ⟨?_, ?_⟩, ?_, ?_, achievementScore_bounds _,
    skillsStrength_bounds _, softCertScore_bounds _, formattingPenalty_bounds _ _⟩
  · exact le_min (sectionScoreOf_nonneg data) (by norm_num)
  · exact min_le_right _ _
  · exact le_min (contactScore_nonneg _) (by norm_num)
  · exact min_le_right _ _
  · exact wordCountScoreQ_cases _
  · exact bulletScoreQ_cases _

/-! ## Claim C9 -/

/-- Claim C9: `calculate_ats_score` reads its `data` mapping only at the
four required-section keys (so two mappings agreeing there give identical
results — the embedding is pure, so the mapping itself is never mutated),
returns its `normalized_languages` argument unchanged as the `languages`
value, and returns `word_count` equal to the number of whitespace-separated
words of `text`. -/
theorem claim_C9_frame (d1 d2 : String → Bool) (text : String)
    (langs : Option (List String))
    (h : ∀ k ∈ required_sections, d1 k = d2 k) :
    calculate_ats_score d1 text langs = calculate_ats_score d2 text langs
    ∧ (calculate_ats_score d1 text langs).languages = langs
    ∧ (calculate_ats_score d1 text langs).word_count = (pySplitWS text.data).length := by
  have h1 := h "experience" (by simp [required_sections])
  have h2 := h "education" (by simp [required_sections])
  have h3 := h "skills" (by simp [required_sections])
  have h4 := h "projects" (by simp [required_sections])
  have hsec : sectionScoreOf d1 = sectionScoreOf d2 := by
    simp only [sectionScoreOf, required_sections, List.foldl, h1, h2, h3, h4]
  have hpre : atsBreakdownPre d1 text = atsBreakdownPre d2 text := by
    simp only [atsBreakdownPre, hsec]
  refine ⟨?_, rfl, rfl⟩
  simp only [calculate_ats_score, hpre]

/-- Witness for C9 at concrete inputs: the two mappings differ at the key
`"hobbies"` but agree on the four required sections, so the scores agree. -/
theorem claim_C9_frame_witness :
    calculate_ats_score (fun k => k == "hobbies") "some text here" (some ["English"])
      = calculate_ats_score (fun _ => false) "some text here" (some ["English"])
    ∧ (calculate_ats_score (fun k => k == "hobbies") "some text here"
        (some ["English"])).languages = some ["English"]
    ∧ (calculate_ats_score (fun k => k == "hobbies") "some text here"
        (some ["English"])).word_count = (pySplitWS "some text here".data).length :=
  claim_C9_frame (fun k => k == "hobbies") (fun _ => false) "some text here"
    (some ["English"]) (by decide)

/-! ## Claim C2 (corrected) -/

/-- Claim C2, counterexample: `calculate_ats_score` does NOT tolerate every
input shape — with a dict `data` and `text=None` it raises
`AttributeError` at `text.split()` (line 124; only line 88 guards `None`). -/
theorem claim_C2_counterexample :
    calculate_ats_score_dyn (some (fun _ => false)) none none
      = Except.error PyErr.attributeError := rfl

/-- Claim C2 as amended: `calculate_ats_score` raises no exception whenever
`data` is a dict and `text` is a string (any string, including the empty
one) — `None` arguments, however, raise `AttributeError` — and empty text
yields the minimum achievable score from the default branches: every
text-dependent category scores `0`. -/
theorem claim_C2_amended :
    (∀ (d : String → Bool) (t : String) (l : Option (List String)),
      calculate_ats_score_dyn (some d) (some t) l = Except.ok (calculate_ats_score d t l))
    ∧ (∀ (d : String → Bool) (l : Option (List String)),
        scoreOf (calculate_ats_score d "" l) "Contact Info" = 0
        ∧ scoreOf (calculate_ats_score d "" l) "Word Count" = 0
        ∧ scoreOf (calculate_ats_score d "" l) "Bullet Points" = 0
        ∧ scoreOf (calculate_ats_score d "" l) "Action + Achievements" = 0
        ∧ scoreOf (calculate_ats_score d "" l) "Skills Strength" = 0
        ∧ scoreOf (calculate_ats_score d "" l) "Soft Skills & Certs" = 0
        ∧ scoreOf (calculate_ats_score d "" l) "Formatting Penalty" = 0
        ∧ (calculate_ats_score d "" l).word_count = 0) := by
  refine ⟨fun _ _ _ => rfl, fun d l => ⟨?_, ?_, ?_, ?_, ?_, ?_, ?_, rfl⟩⟩
  · rw [scoreOf_contact]
    unfold contactScore
    norm_num [show searchB emailPat (lowerL "".data) = false from rfl,
      show searchB linkPat (lowerL "".data) = false from rfl]
  · rw [scoreOf_wc, show (pySplitWS "".data).length = 0 from rfl]
    simp [wordCountScoreQ]
  · rw [scoreOf_bullets, show countMatches bulletPat "".data = 0 from rfl]
    simp [bulletScoreQ]
  · rw [scoreOf_achievements]
    unfold achievementScore
    norm_num [show countMatches actionPat (lowerL "".data) = 0 from rfl,
      show countMatches metricsPat (lowerL "".data) = 0 from rfl]
  · rw [scoreOf_skills]
    unfold skillsStrength
    norm_num [show (tech_keywords.filter
        (fun kw => containsSub kw.data (lowerL "".data))).length = 0 from rfl,
      show (tools_keywords.filter
        (fun kw => containsSub kw.data (lowerL "".data))).length = 0 from rfl]
  · rw [scoreOf_softcert]
    unfold softCertScore
    norm_num [show (soft_skills.filter
        (fun kw => containsSub kw.data (lowerL "".data))).length = 0 from rfl,
      show (cert_keywords.filter
        (fun kw => containsSub kw.data (lowerL "".data))).length = 0 from rfl]
  · rw [scoreOf_penalty]
    unfold formattingPenalty
    norm_num [show searchB imagePat (lowerL "".data) = false from rfl,
      show longestLineLen "".data = 0 from rfl]

/-! ## Claim C7 -/

theorem dedupSeen_congr (xs : List String) :
    ∀ s1 s2 : List String, (∀ y, y ∈ s1 ↔ y ∈ s2) →
      dedupSeen xs s1 = dedupSeen xs s2 := by
  induction xs with
  | nil => intro s1 s2 _; rfl
  | cons x xs ih =>
    intro s1 s2 h
    simp only [dedupSeen]
    by_cases hx : x ∈ s1
    · rw [if_pos hx, if_pos ((h x).mp hx)]
      exact ih s1 s2 h
    · rw [if_neg hx, if_neg (fun hc => hx ((h x).mpr hc))]
      have h' : ∀ y, y ∈ x :: s1 ↔ y ∈ x :: s2 := by
        intro y
        simp only [List.mem_cons]
        exact or_congr Iff.rfl (h y)
      rw [ih (x :: s1) (x :: s2) h']

theorem foldl_appendIfAbsent (xs : List String) :
    ∀ acc : List String, xs.foldl appendIfAbsent acc = acc ++ dedupSeen xs acc := by
  induction xs with
  | nil => intro acc; simp [dedupSeen]
  | cons x xs ih =>
    intro acc
    by_cases hx : x ∈ acc
    · simp only [List.foldl_cons, appendIfAbsent, if_pos hx, dedupSeen, ih]
    · simp only [List.foldl_cons, appendIfAbsent, if_neg hx, dedupSeen]
      rw [ih (acc ++ [x]),
        dedupSeen_congr xs (acc ++ [x]) (x :: acc)
          (by intro y; simp [List.mem_append, List.mem_cons, or_comm]),
        List.append_assoc]
      simp

theorem mem_dedupSeen_not_seen (xs : List String) :
    ∀ (seen : List String) (y : String), y ∈ dedupSeen xs seen → y ∉ seen := by
  induction xs with
  | nil => intro seen y hy; simp [dedupSeen] at hy
  | cons x xs ih =>
    intro seen y hy
    simp only [dedupSeen] at hy
    by_cases hx : x ∈ seen
    · rw [if_pos hx] at hy
      exact ih seen y hy
    · rw [if_neg hx] at hy
      rcases List.mem_cons.mp hy with h1 | h2
      · subst h1; exact hx
      · intro hc
        exact ih (x :: seen) y h2 (List.mem_cons_of_mem _ hc)

theorem dedupSeen_nodup (xs : List String) :
    ∀ seen : List String, (dedupSeen xs seen).Nodup := by
  induction xs with
  | nil => intro seen; simp [dedupSeen]
  | cons x xs ih =>
    intro seen
    simp only [dedupSeen]
    by_cases hx : x ∈ seen
    · rw [if_pos hx]; exact ih seen
    · rw [if_neg hx]
      refine List.nodup_cons.mpr ⟨?_, ih (x :: seen)⟩
      intro hc
      exact mem_dedupSeen_not_seen xs (x :: seen) x hc (List.mem_cons_self x seen)

/-- Claim C7: for every input (a string or a list of values), the sequence
returned by `normalize_languages` contains no duplicate rendered entries,
and equals the first-occurrence deduplication of the rendered match
sequence — the order of first occurrence is preserved and every later
identical rendering is dropped. -/
theorem claim_C7_nodup_first_occurrence (input : PyTextInput) :
    (normalize_languages input).Nodup
    ∧ normalize_languages input = dedupKeepFirst (renderedLanguages input) := by
  constructor
  · unfold normalize_languages
    rw [foldl_appendIfAbsent]
    simpa using dedupSeen_nodup (renderedLanguages input) []
  · unfold normalize_languages dedupKeepFirst
    rw [foldl_appendIfAbsent]
    simp

/-! ## Claim C8 -/

/-- A collapsed character list: every whitespace character is the plain
space, and no two adjacent characters are both whitespace. -/
def CollapsedP (l : List Char) : Prop :=
  (∀ c ∈ l, isPySpace c = true → c = ' ')
  ∧ l.Chain' (fun a b => ¬(isPySpace a = true ∧ isPySpace b = true))

theorem dw_head_nonspace (l : List Char) :
    ∀ y : Char, (l.dropWhile isPySpace).head? = some y → isPySpace y = false := by
  induction l with
  | nil => intro y hy; simp at hy
  | cons c cs ih =>
    intro y hy
    rw [List.dropWhile_cons] at hy
    by_cases hc : isPySpace c
    · rw [if_pos hc] at hy
      exact ih y hy
    · rw [if_neg hc] at hy
      simp only [List.head?_cons, Option.some.injEq] at hy
      subst hy
      simpa using hc

theorem dropWhile_eq_self_of_head (l : List Char)
    (h : ∀ y : Char, l.head? = some y → isPySpace y = false) :
    l.dropWhile isPySpace = l := by
  cases l with
  | nil => rfl
  | cons c cs =>
    have := h c rfl
    simp [List.dropWhile_cons, this]

theorem collapsed_pySubWSRuns (l : List Char) : CollapsedP (pySubWSRuns l) := by
  induction l using pySubWSRuns.induct with
  | case1 =>
    constructor
    · intro c hc; simp [pySubWSRuns] at hc
    · simp [pySubWSRuns]
  | case2 c cs hc ih =>
    rw [show pySubWSRuns (c :: cs) = ' ' :: pySubWSRuns (cs.dropWhile isPySpace) by
      simp [pySubWSRuns, hc]]
    constructor
    · intro d hd hds
      rcases List.mem_cons.mp hd with h1 | h2
      · exact h1
      · exact ih.1 d h2 hds
    · rw [List.chain'_cons']
      refine ⟨?_, ih.2⟩
      intro y hy hcon
      have hhd : (pySubWSRuns (cs.dropWhile isPySpace)).head? = some y := hy
      have : isPySpace y = false := by
        cases hdw : cs.dropWhile isPySpace with
        | nil => rw [hdw] at hhd; simp [pySubWSRuns] at hhd
        | cons d ds =>
          have hd : isPySpace d = false := by
            have := dw_head_nonspace cs d
            rw [hdw] at this
            exact this rfl
          rw [hdw, show pySubWSRuns (d :: ds) = d :: pySubWSRuns ds by
            simp [pySubWSRuns, hd]] at hhd
          simp only [List.head?_cons, Option.some.injEq] at hhd
          subst hhd
          exact hd
      rw [this] at hcon
      exact Bool.false_ne_true hcon.2
  | case3 c cs hc ih =>
    rw [show pySubWSRuns (c :: cs) = c :: pySubWSRuns cs by simp [pySubWSRuns, hc]]
    constructor
    · intro d hd hds
      rcases List.mem_cons.mp hd with h1 | h2
      · subst h1; rw [hds] at hc; simp at hc
      · exact ih.1 d h2 hds
    · rw [List.chain'_cons']
      refine ⟨?_, ih.2⟩
      intro y _ hcon
      have : isPySpace c = true := hcon.1
      rw [this] at hc
      simp at hc

theorem pySubWSRuns_of_collapsed (l : List Char) (h : CollapsedP l) :
    pySubWSRuns l = l := by
  induction l with
  | nil => simp [pySubWSRuns]
  | cons c cs ih =>
    rcases h with ⟨hall, hch⟩
    have htail : CollapsedP cs :=
      ⟨fun d hd => hall d (List.mem_cons_of_mem _ hd), hch.tail⟩
    by_cases hc : isPySpace c
    · have hc' : c = ' ' := hall c (List.mem_cons_self _ _) hc
      have hdrop : cs.dropWhile isPySpace = cs := by
        apply dropWhile_eq_self_of_head
        intro y hy
        cases cs with
        | nil => simp at hy
        | cons d ds =>
          simp only [List.head?_cons, Option.some.injEq] at hy
          subst hy
          have hrel := (List.chain'_cons.mp hch).1
          by_contra hyc
          exact hrel ⟨hc, by simpa using hyc⟩
      rw [show pySubWSRuns (c :: cs) = ' ' :: pySubWSRuns (cs.dropWhile isPySpace) by
        simp [pySubWSRuns, hc]]
      rw [hdrop, ih htail, hc']
    · rw [show pySubWSRuns (c :: cs) = c :: pySubWSRuns cs by simp [pySubWSRuns, hc]]
      rw [ih htail]

/-- `pyStrip l` is a contiguous part of `l`: some prefix `s` and suffix `t`
of `l` surround it. -/
theorem pyStrip_isPart (l : List Char) :
    ∃ s t : List Char, s ++ pyStrip l ++ t = l := by
  have h1 : l.dropWhile isPySpace <:+ l := List.dropWhile_suffix _
  have h2 : ((l.dropWhile isPySpace).reverse.dropWhile isPySpace)
      <:+ (l.dropWhile isPySpace).reverse := List.dropWhile_suffix _
  have h3 : pyStrip l <+: l.dropWhile isPySpace := by
    unfold pyStrip
    rw [← List.reverse_reverse ((l.dropWhile isPySpace).reverse.dropWhile isPySpace)] at h2
    exact List.reverse_suffix.mp h2
  obtain ⟨t, ht⟩ := h3
  obtain ⟨s, hs⟩ := h1
  exact ⟨s, t, by rw [List.append_assoc, ht, hs]⟩

theorem collapsed_of_part {l m : List Char} (h : CollapsedP l)
    (hm : ∃ s t : List Char, s ++ m ++ t = l) : CollapsedP m := by
  obtain ⟨s, t, hst⟩ := hm
  constructor
  · intro c hc
    exact h.1 c (by rw [← hst]; simp [hc])
  · have hch := h.2
    rw [← hst] at hch
    have h1 := (List.chain'_append.mp hch).1
    exact (List.chain'_append.mp h1).2.1

theorem pyStrip_head_nonspace (l : List Char) :
    ∀ y : Char, (pyStrip l).head? = some y → isPySpace y = false := by
  intro y hy
  have hpre : pyStrip l <+: l.dropWhile isPySpace := by
    unfold pyStrip
    have h2 : ((l.dropWhile isPySpace).reverse.dropWhile isPySpace)
        <:+ (l.dropWhile isPySpace).reverse := List.dropWhile_suffix _
    rw [← List.reverse_reverse ((l.dropWhile isPySpace).reverse.dropWhile isPySpace)] at h2
    exact List.reverse_suffix.mp h2
  obtain ⟨t, ht⟩ := hpre
  apply dw_head_nonspace l y
  rw [← ht]
  cases hs : pyStrip l with
  | nil => rw [hs] at hy; simp at hy
  | cons a rest =>
    rw [hs] at hy
    simp only [List.head?_cons, Option.some.injEq] at hy
    subst hy
    simp

theorem pyStrip_reverse_head_nonspace (l : List Char) :
    ∀ y : Char, (pyStrip l).reverse.head? = some y → isPySpace y = false := by
  intro y hy
  unfold pyStrip at hy
  rw [List.reverse_reverse] at hy
  exact dw_head_nonspace (l.dropWhile isPySpace).reverse y hy

theorem pyStrip_idem (l : List Char) : pyStrip (pyStrip l) = pyStrip l := by
  have h1 : (pyStrip l).dropWhile isPySpace = pyStrip l :=
    dropWhile_eq_self_of_head _ (pyStrip_head_nonspace l)
  have h2 : (pyStrip l).reverse.dropWhile isPySpace = (pyStrip l).reverse :=
    dropWhile_eq_self_of_head _ (pyStrip_reverse_head_nonspace l)
  show (((pyStrip l).dropWhile isPySpace).reverse.dropWhile isPySpace).reverse = pyStrip l
  rw [h1, h2, List.reverse_reverse]

/-- Claim C8: the text normalizer is idempotent — for every string `t`,
`normalize_text (normalize_text t) = normalize_text t`. -/
theorem claim_C8_normalize_text_idempotent (t : String) :
    normalize_text (normalize_text t) = normalize_text t := by
  unfold normalize_text
  congr 1
  have hcol : CollapsedP (pySubWSRuns t.data) := collapsed_pySubWSRuns _
  have hstrip : CollapsedP (pyStrip (pySubWSRuns t.data)) :=
    collapsed_of_part hcol (pyStrip_isPart _)
  rw [show (String.mk (pyStrip (pySubWSRuns t.data))).data
      = pyStrip (pySubWSRuns t.data) from rfl]
  rw [pySubWSRuns_of_collapsed _ hstrip]
  exact pyStrip_idem _

/-! ## Claim C3 (corrected) -/

/-- Claim C3, counterexample: on the spec's example text, strict
heading-scoped extraction does NOT return exactly
`["Mysql", "Python", "React"]` — the whole-text "backward compatibility"
pass of `extract_technical_skills` also picks up the heading line and the
PROJECTS token. -/
theorem claim_C3_counterexample :
    ¬ (extract_technical_skills "TECHNICAL SKILLS\nPython, React, MySQL\nPROJECTS\n..."
        = ["Mysql", "Python", "React"]) := by decide

/-- Claim C3 as amended: on the spec's example text,
`extract_technical_skills` returns the three skills alphabetically sorted
and capitalized, but together with `"Projects"` and `"Technical skills"`,
which its unconditional whole-text fallback pass extracts from outside the
skills heading's scope (the heading-scoped pass finds no section here at
all, since the text has no trailing newline and `projects` is not a
recognized heading). -/
theorem claim_C3_amended :
    extract_technical_skills "TECHNICAL SKILLS\nPython, React, MySQL\nPROJECTS\n..."
      = ["Mysql", "Projects", "Python", "React", "Technical skills"] := by decide

/-! ## Claim C4 (corrected) -/

/-- Claim C4, counterexample: `normalize_languages` does NOT strip the
parentheses of the proficiency annotation — the second regex group
`(\([^)]+\))` captures them, and only whitespace is removed from the
uppercased capture. -/
theorem claim_C4_counterexample :
    ¬ (normalize_languages (.ofStr "English (Fluent), English (Fluent)")
        = ["English FLUENT"]) := by decide

/-- Claim C4 as amended:
`normalize_languages("English (Fluent), English (Fluent)")` returns exactly
the single-entry list `["English (FLUENT)"]`: the duplicate rendering is
collapsed and the proficiency annotation is uppercased with internal
whitespace removed, but the parentheses are kept. -/
theorem claim_C4_amended :
    normalize_languages (.ofStr "English (Fluent), English (Fluent)")
      = ["English (FLUENT)"] := by decide

/-! ## Claim C10 -/

/-- Claim C10: `extract_programming_languages` matches canonical names by
raw substring containment, so for `"react"` — which contains the letter
`c` but no standalone C — it returns exactly `["C"]`: the
ambiguous-single-letter guard removes `"R"` for this input, but no
analogous guard exists for `"C"`. -/
theorem claim_C10_react_contains_c :
    extract_programming_languages "react" = ["C"] := by decide

end ResumeHelper
